import Mathlib

/-
Verification development for the food-calorie-estimator repository.
The frontend sources (BatchAnalyze, api.ts, apiErrorHandler, AuthContext,
Dashboard) are embedded shallowly below; the server-side router and batch
engine, whose code is not part of the frontend tree, are modelled from the
design spec where a claim needs them.
-/

namespace FoodCalorie

/-! ## Batch status values (BatchAnalyze.tsx, interface BatchStatus) -/

/-- Status values of a batch, from the BatchStatus interface:
status is queued, processing, completed or failed. -/
inductive BStatus where
  | queued
  | processing
  | completed
  | failed
deriving DecidableEq, Repr

/-- A status is terminal when it is completed or failed. -/
def BStatus.isTerminal : BStatus → Bool
  | .completed => true
  | .failed => true
  | _ => false

/-! ## Client-side polling loop (BatchAnalyze.tsx, pollBatchStatus) -/

/-- Source constant maxPolls = 300 in pollBatchStatus. -/
def maxPolls : Nat := 300

/-- Source delay passed to setTimeout in pollBatchStatus: 1000 ms. -/
def pollIntervalMs : Nat := 1000

/-- Outcome of the polling loop: either a terminal status was observed, or
the attempt budget ran out and the timeout error was surfaced.  fetches
counts status requests made; delays lists the setTimeout delays that were
scheduled, in order. -/
inductive PollOutcome where
  | finished (s : BStatus) (fetches : Nat) (delays : List Nat)
  | timedOut (errorMessage : String) (fetches : Nat) (delays : List Nat)
deriving DecidableEq, Repr

/-- The recursive poll closure of pollBatchStatus.  statusAt gives the
status returned by the idx-th fetch; budget is maxPolls minus the current
pollCount.  A terminal status stops the loop; otherwise, while budget
remains, another poll is scheduled with delay pollIntervalMs. -/
def pollAux (statusAt : Nat → BStatus) : Nat → Nat → List Nat → PollOutcome
  | budget, idx, delays =>
    if (statusAt idx).isTerminal then
      .finished (statusAt idx) (idx + 1) delays
    else
      match budget with
      | 0 => .timedOut "Batch processing timed out" (idx + 1) delays
      | Nat.succ b => pollAux statusAt b (idx + 1) (delays ++ [pollIntervalMs])

/-- pollBatchStatus: start the poll closure with pollCount = 0. -/
def pollBatchStatus (statusAt : Nat → BStatus) : PollOutcome :=
  pollAux statusAt maxPolls 0 []

/-- Delays scheduled by a finished or timed-out run. -/
def PollOutcome.delays : PollOutcome → List Nat
  | .finished _ _ ds => ds
  | .timedOut _ _ ds => ds

/-- Number of status fetches performed by a run. -/
def PollOutcome.fetches : PollOutcome → Nat
  | .finished _ f _ => f
  | .timedOut _ f _ => f

/-! ## Client-side batch record (BatchAnalyze.tsx) -/

/-- The BatchStatus record the client keeps: batch id, status, progress,
total, completed, optional results and optional batch-level error. -/
structure BatchStatusRecord where
  batch_id : String
  status : BStatus
  progress : Nat
  total : Nat
  completed : Nat
  results : Option (List String)
  error : Option String
deriving DecidableEq, Repr

/-- State set by uploadBatch right after a successful POST /batch/upload:
status queued, progress 0, total = number of selected files, completed 0;
the optional results and error fields are absent. -/
def uploadBatchInitialStatus (batch_id : String) (numFiles : Nat) : BatchStatusRecord :=
  { batch_id := batch_id
    status := .queued
    progress := 0
    total := numFiles
    completed := 0
    results := none
    error := none }

/-- Render guard of the results card in BatchAnalyze: it is shown only when
status is completed and the results array is present and non-empty. -/
def showResultsSection (b : BatchStatusRecord) : Bool :=
  b.status == .completed &&
    (match b.results with
     | some rs => decide (0 < rs.length)
     | none => false)

/-! ## Request timeouts (frontend/src/config/api.ts and apiErrorHandler) -/

/-- A forwarded HTTP call as the frontend issues it: target URL, the timeout
passed down, and the instant (ms after dispatch) at which apiRequest's
AbortController fires. -/
structure HttpCall where
  url : String
  timeoutMs : Nat
  abortAtMs : Nat
deriving DecidableEq, Repr

/-- apiRequest (apiErrorHandler): default timeout 10000 ms; it schedules
controller.abort() via setTimeout after exactly the given timeout. -/
def apiRequest (url : String) (timeout : Nat := 10000) : HttpCall :=
  { url := url, timeoutMs := timeout, abortAtMs := timeout }

/-- API_BASE_URL in local development (api.ts, getLoadBalancerUrl). -/
def API_BASE_URL : String := "http://localhost:9000"

/-- makeApiRequest (api.ts): default timeout 30000 ms, forwarded to
apiRequest against the load-balancer base URL. -/
def makeApiRequest (endpoint : String) (timeout : Nat := 30000) : HttpCall :=
  apiRequest (API_BASE_URL ++ endpoint) timeout

/-- Backend server URLs from API_CONFIG.BACKEND_SERVERS (api.ts). -/
def BACKEND_SERVERS : List String :=
  ["http://backend-1:8000", "http://backend-2:8001", "http://backend-3:8002"]

/-- The per-worker health probe issued inside checkAllBackendServers:
GET server/health through apiRequest with a 5000 ms timeout. -/
def backendHealthProbe (serverUrl : String) : HttpCall :=
  apiRequest (serverUrl ++ "/health") 5000

/-- checkAllBackendServers (api.ts): probes every configured backend. -/
def checkAllBackendServers : List HttpCall :=
  BACKEND_SERVERS.map backendHealthProbe

/-! ## createApiError (frontend/src/utils/apiErrorHandler.ts) -/

/-- The shape of the ApiError object the factory builds. -/
structure ApiError where
  name : String
  message : String
  status : Nat
  serverUrl : Option String
  isServerDown : Bool
deriving DecidableEq, Repr

/-- Inputs createApiError distinguishes: an HTTP Response, a TypeError whose
message mentions fetch, some other TypeError, an AbortError, an axios-style
error carrying a response or only a request, or a generic error with an
optional message. -/
inductive JsErrorInput where
  | response (status : Nat) (statusText : String)
  | typeErrorFetch (message : String)
  | typeErrorOther (message : String)
  | abortError
  | withResponse (status : Option Nat) (dataError dataMessage : Option String)
      (statusText : String)
  | withRequest
  | generic (message : Option String)
deriving DecidableEq, Repr

/-- JavaScript-style or on strings: an absent or empty string falls through
to the alternative. -/
def jsStringOr (a : Option String) (b : String) : String :=
  match a with
  | some s => if s = "" then b else s
  | none => b

/-- createApiError: translate any error input into an ApiError, mirroring
the source branch by branch. -/
def createApiError (error : JsErrorInput) (url : Option String := none)
    (defaultMessage : String := "An unexpected error occurred") : ApiError :=
  match error with
  | .response s st =>
      { name := "ApiError"
        message := "HTTP " ++ toString s ++ ": " ++ st
        status := s
        serverUrl := url
        isServerDown := decide (500 ≤ s) || decide (s = 503) }
  | .typeErrorFetch _ =>
      { name := "ApiError"
        message := "Unable to connect to server. Please check if the server is running."
        status := 0
        serverUrl := url
        isServerDown := true }
  | .abortError =>
      { name := "ApiError"
        message := "Request was cancelled"
        status := 0
        serverUrl := url
        isServerDown := false }
  | .withResponse st de dm stt =>
      let s : Nat := match st with
        | some 0 => 500
        | some n => n
        | none => 500
      { name := "ApiError"
        message := jsStringOr de (jsStringOr dm (if stt = "" then "Server error" else stt))
        status := s
        serverUrl := url
        isServerDown := decide (500 ≤ s) || decide (s = 503) || decide (s = 502) }
  | .withRequest =>
      { name := "ApiError"
        message := "No response from server. Server may be down."
        status := 0
        serverUrl := url
        isServerDown := true }
  | .typeErrorOther m =>
      { name := "ApiError"
        message := jsStringOr (some m) defaultMessage
        status := 500
        serverUrl := url
        isServerDown := false }
  | .generic m =>
      { name := "ApiError"
        message := jsStringOr m defaultMessage
        status := 500
        serverUrl := url
        isServerDown := false }

/-! ## Authentication (frontend/src/context/AuthContext.tsx) -/

/-- User roles carried by an authenticated user. -/
inductive UserRole where
  | admin
  | user
deriving DecidableEq, Repr

/-- The User object stored by the auth context. -/
structure AuthUser where
  id : String
  name : String
  email : String
  role : UserRole
deriving DecidableEq, Repr

/-- mockUsers entry for the admin account. -/
def adminUser : AuthUser :=
  { id := "1", name := "Admin User", email := "admin@food.com", role := .admin }

/-- mockUsers entry for the regular account. -/
def regularUser : AuthUser :=
  { id := "2", name := "Regular User", email := "user@food.com", role := .user }

/-- The mockUsers lookup table keyed by email. -/
def mockUsers (email : String) : Option AuthUser :=
  if email = "admin@food.com" then some adminUser
  else if email = "user@food.com" then some regularUser
  else none

/-- login: on the two hard-coded credential pairs it stores the matching
mock user and resolves true; on anything else it resolves false and leaves
the stored user untouched.  The result is the resolved boolean together
with the user state after the call. -/
def login (email password : String) (current : Option AuthUser) :
    Bool × Option AuthUser :=
  if (email = "admin@food.com" ∧ password = "admin123") ∨
      (email = "user@food.com" ∧ password = "user123") then
    match mockUsers email with
    | some u => (true, some u)
    | none => (true, current)
  else
    (false, current)

/-! ## Batch engine, modelled from the spec (sections 4.4, 4.5) -/

/-- Modelled from the spec: the Batch record of the Batch Store, whose code
is server-side and not in the frontend tree.  total is the item count fixed
at submission; done records the distinct item indices whose ItemResult has
been written (so the aggregate completedCount is its length and ItemResult
writes are idempotent upserts); errorMsg stores the submission-level error
of a failed batch. -/
structure Batch where
  total : Nat
  done : List Nat
  status : BStatus
  errorMsg : Option String
deriving DecidableEq, Repr

/-- Aggregate completedCount of a batch. -/
def completedCount (b : Batch) : Nat := b.done.length

/-- Modelled from the spec: createBatch(total) — atomic creation with
status queued before any item is dispatched. -/
def createBatch (total : Nat) : Batch :=
  { total := total, done := [], status := .queued, errorMsg := none }

/-- Forward order of the status machine:
queued before processing before the terminal states. -/
def statusRank : BStatus → Nat
  | .queued => 0
  | .processing => 1
  | .completed => 2
  | .failed => 2

/-- Modelled from the spec: transitionStatus — only forward transitions are
permitted; moving a terminal batch anywhere is a no-op, not an error. -/
def transitionStatus (b : Batch) (s : BStatus) : Batch :=
  if statusRank b.status < statusRank s then { b with status := s } else b

/-- Events that mutate a batch: the first task being dequeued, a worker
completing item i, or a submission-level fault. -/
inductive BatchEvent where
  | firstDequeue
  | itemComplete (i : Nat)
  | submissionFault (msg : String)
deriving DecidableEq, Repr

/-- Modelled from the spec: one batch mutation.  A terminal batch is frozen
(redelivered work is a no-op).  Completing a valid, not-yet-done item
records its result and increments the aggregate by exactly one; the worker
whose increment reaches total transitions the batch to completed.  A
submission fault on a live batch transitions it to failed with the error
stored. -/
def stepBatch (b : Batch) : BatchEvent → Batch
  | .firstDequeue => transitionStatus b .processing
  | .itemComplete i =>
      if b.status.isTerminal then b
      else if i < b.total ∧ i ∉ b.done then
        let b2 : Batch := { b with done := i :: b.done }
        if completedCount b2 = b2.total then transitionStatus b2 .completed else b2
      else b
  | .submissionFault m =>
      if b.status.isTerminal then b
      else { b with status := .failed, errorMsg := some m }

/-- Well-formedness of a batch: recorded item indices are distinct and lie
below total. -/
def BatchWf (b : Batch) : Prop :=
  b.done.Nodup ∧ ∀ i ∈ b.done, i < b.total

/-- Modelled from the spec: the body served by GET /batch/status/{batchId}.
results is populated only once status is completed; the error field only
once status is failed. -/
def getStatusResponse (b : Batch) (bid : String) : BatchStatusRecord :=
  { batch_id := bid
    status := b.status
    progress := if b.total = 0 then 0 else completedCount b * 100 / b.total
    total := b.total
    completed := completedCount b
    results := if b.status = .completed then some (b.done.map toString) else none
    error := if b.status = .failed then b.errorMsg else none }

/-! ## Request router, modelled from the spec (section 4.2) -/

/-- Modelled from the spec: router state — the registered workers with
their health flags in registration order, the per-worker served counts,
and the shared round-robin cursor into the worker list. -/
structure Router where
  health : List Bool
  served : Nat → Nat
  cursor : Nat

/-- Health of the worker at an index (out-of-range reads as unhealthy). -/
def healthyAt (h : List Bool) (i : Nat) : Bool := h.getD i false

/-- Scan at most fuel positions starting at start (wrapping over the worker
list) for the first healthy worker. -/
def scanHealthy (h : List Bool) : Nat → Nat → Option Nat
  | _, 0 => none
  | start, Nat.succ fuel =>
      if healthyAt h (start % h.length) then some (start % h.length)
      else scanHealthy h (start + 1) fuel

/-- Modelled from the spec: route one inbound request — pick the next
healthy worker at or after the cursor (wrapping), bump its served count and
advance the cursor past it; with no healthy worker the request fails fast
and the state is unchanged. -/
def routeOne (r : Router) : Router :=
  match scanHealthy r.health r.cursor r.health.length with
  | none => r
  | some i =>
      { r with
        served := fun j => if j = i then r.served j + 1 else r.served j
        cursor := (i + 1) % r.health.length }

/-- Route n sequential requests. -/
def routeN : Nat → Router → Router
  | 0, r => r
  | Nat.succ n, r => routeOne (routeN n r)

/-- A fresh router over k workers, all healthy, no requests served,
cursor at its starting position 0. -/
def initialRouter (k : Nat) : Router :=
  { health := List.replicate k true, served := fun _ => 0, cursor := 0 }

/-! ## Health and stats fields (Dashboard.tsx, Home.tsx, LOAD_BALANCER_GUIDE) -/

/-- Fields of the /health response object read by the Dashboard server
status display (getServerStatusDisplay and hasHealthyServers). -/
def dashboardHealthReads : List String :=
  ["status", "healthy_servers", "total_servers", "total_requests", "servers"]

/-- Fields read from each entry of the servers array by the Dashboard
server status display. -/
def dashboardServerEntryReads : List String :=
  ["healthy", "url", "current_load"]

/-- Fields of the /health response read by the Home page connection test. -/
def homeHealthReads : List String :=
  ["healthy_servers", "total_servers"]

/-- Top-level fields of the /health response documented in
LOAD_BALANCER_GUIDE.md. -/
def guideHealthFields : List String :=
  ["status", "load_balancer", "port", "healthy_servers", "total_servers", "servers"]

/-- Fields of each servers entry of the documented /health response. -/
def guideHealthServerFields : List String :=
  ["name", "url", "healthy"]

/-- Top-level fields of the /stats response documented in
LOAD_BALANCER_GUIDE.md. -/
def guideStatsTopFields : List String :=
  ["load_balancer", "servers", "next_server", "current_index"]

/-- Fields of the load_balancer object of the documented /stats response
(algorithm is round-robin). -/
def guideStatsLoadBalancerFields : List String :=
  ["port", "status", "algorithm"]

/-- Modelled from the spec: the health-response fields named by the spec
sentence for GET /health. -/
def specHealthFields : List String :=
  ["status", "healthyCount", "totalCount", "perWorker"]

/-- Modelled from the spec: the perWorker entry fields named by the spec
sentence for GET /health. -/
def specPerWorkerFields : List String :=
  ["name", "url", "healthy", "currentLoad"]

/-- Modelled from the spec: the stats-response fields named by the spec
sentence for GET /stats. -/
def specStatsFields : List String :=
  ["algorithm", "nextWorker", "perWorkerServedCount"]

/-! ## Theorems -/

/-- C6: a successful batch submission yields a client record carrying the
returned batch id, immediately in status queued with completed 0 and total
equal to the number of submitted items and no results or error yet, and it
agrees with the batch the spec-modelled store creates atomically at
acceptance time. -/
theorem uploadBatch_accepted (bid : String) (n : Nat) :
    (uploadBatchInitialStatus bid n).batch_id = bid ∧
    (uploadBatchInitialStatus bid n).status = .queued ∧
    (uploadBatchInitialStatus bid n).completed = 0 ∧
    (uploadBatchInitialStatus bid n).total = n ∧
    (uploadBatchInitialStatus bid n).results = none ∧
    (uploadBatchInitialStatus bid n).error = none ∧
    (createBatch n).status = .queued ∧
    completedCount (createBatch n) = 0 ∧
    (createBatch n).total = n ∧
    (uploadBatchInitialStatus bid n).status = (createBatch n).status ∧
    (uploadBatchInitialStatus bid n).completed = completedCount (createBatch n) ∧
    (uploadBatchInitialStatus bid n).total = (createBatch n).total := by
  simp [uploadBatchInitialStatus, createBatch, completedCount]

/-- C8: general API requests through makeApiRequest default to a 30000 ms
timeout, per-worker health probes use 5000 ms, and apiRequest schedules its
abort exactly at the configured timeout. -/
theorem request_timeouts (endpoint serverUrl u : String) (t : Nat) :
    (makeApiRequest endpoint).timeoutMs = 30000 ∧
    (makeApiRequest endpoint).abortAtMs = (makeApiRequest endpoint).timeoutMs ∧
    (apiRequest u t).abortAtMs = t ∧
    (apiRequest u t).timeoutMs = t ∧
    (backendHealthProbe serverUrl).timeoutMs = 5000 ∧
    (∀ c ∈ checkAllBackendServers, c.timeoutMs = 5000 ∧ c.abortAtMs = 5000) := by
  refine ⟨rfl, rfl, rfl, rfl, rfl, ?_⟩
  intro c hc
  simp only [checkAllBackendServers, BACKEND_SERVERS, List.map, List.mem_cons,
    List.not_mem_nil, or_false] at hc
  rcases hc with h | h | h <;> subst h <;> exact ⟨rfl, rfl⟩

/-- Witness for request_timeouts at concrete inputs. -/
theorem request_timeouts_witness :
    (makeApiRequest "/predict").timeoutMs = 30000 ∧
    (apiRequest "http://x" 7).abortAtMs = 7 ∧
    (backendHealthProbe "http://backend-1:8000").timeoutMs = 5000 ∧
    (apiRequest ("http://backend-1:8000" ++ "/health") 5000).timeoutMs = 5000 := by
  have h := request_timeouts "/predict" "http://backend-1:8000" "http://x" 7
  refine ⟨h.1, h.2.2.1, h.2.2.2.2.1, ?_⟩
  exact (h.2.2.2.2.2 (backendHealthProbe "http://backend-1:8000")
    (by simp [checkAllBackendServers, BACKEND_SERVERS])).1

/-- C9: createApiError builds an ApiError for every input; for an HTTP
Response of status s the result carries status s and isServerDown holds
exactly when s is at least 500, and a fetch-type network TypeError yields
status 0 with isServerDown true. -/
theorem createApiError_total (e : JsErrorInput) (url : Option String) (dm : String) :
    (createApiError e url dm).name = "ApiError" ∧
    (∀ s st, e = .response s st →
      (createApiError e url dm).status = s ∧
      ((createApiError e url dm).isServerDown = true ↔ 500 ≤ s)) ∧
    (∀ m, e = .typeErrorFetch m →
      (createApiError e url dm).status = 0 ∧
      (createApiError e url dm).isServerDown = true) := by
  refine ⟨?_, ?_, ?_⟩
  · cases e <;> rfl
  · intro s st he
    subst he
    refine ⟨rfl, ?_⟩
    simp only [createApiError, Bool.or_eq_true, decide_eq_true_eq]
    constructor
    · rintro (h | h)
      · exact h
      · omega
    · intro h
      exact Or.inl h
  · intro m he
    subst he
    exact ⟨rfl, rfl⟩

/-- Witness for createApiError_total at concrete inputs. -/
theorem createApiError_total_witness :
    (createApiError (.response 502 "Bad Gateway") none "x").status = 502 ∧
    (createApiError (.response 502 "Bad Gateway") none "x").isServerDown = true ∧
    (createApiError (.response 404 "Not Found") none "x").isServerDown = false ∧
    (createApiError (.typeErrorFetch "Failed to fetch") none "x").status = 0 ∧
    (createApiError (.typeErrorFetch "Failed to fetch") none "x").isServerDown = true := by
  have h1 := createApiError_total (.response 502 "Bad Gateway") none "x"
  have h2 := createApiError_total (.response 404 "Not Found") none "x"
  have h3 := createApiError_total (.typeErrorFetch "Failed to fetch") none "x"
  refine ⟨(h1.2.1 502 "Bad Gateway" rfl).1, (h1.2.1 502 "Bad Gateway" rfl).2.mpr (by omega),
    ?_, (h3.2.2 "Failed to fetch" rfl).1, (h3.2.2 "Failed to fetch" rfl).2⟩
  have h4 := (h2.2.1 404 "Not Found" rfl).2
  cases hval : (createApiError (.response 404 "Not Found") none "x").isServerDown with
  | false => rfl
  | true => exact absurd (h4.mp hval) (by omega)


/-- C10: login resolves true and stores the matching mock user exactly for
the two hard-coded credential pairs; every other pair resolves false and
leaves the stored user unchanged. -/
theorem login_spec (email password : String) (current : Option AuthUser) :
    ((login email password current).1 = true ↔
      (email = "admin@food.com" ∧ password = "admin123") ∨
      (email = "user@food.com" ∧ password = "user123")) ∧
    ((email = "admin@food.com" ∧ password = "admin123") →
      login email password current = (true, some adminUser)) ∧
    ((email = "user@food.com" ∧ password = "user123") →
      login email password current = (true, some regularUser)) ∧
    ((login email password current).1 = false →
      (login email password current).2 = current) := by
  by_cases hc : (email = "admin@food.com" ∧ password = "admin123") ∨
      (email = "user@food.com" ∧ password = "user123")
  · refine ⟨?_, ?_, ?_, ?_⟩
    · simp only [login, if_pos hc]
      rcases hc with ⟨he, hp⟩ | ⟨he, hp⟩ <;> subst he <;> subst hp <;>
        simp [mockUsers]
    · rintro ⟨he, hp⟩
      subst he; subst hp
      simp [login, mockUsers]
    · rintro ⟨he, hp⟩
      subst he; subst hp
      simp [login, mockUsers]
    · intro hfalse
      exfalso
      rcases hc with ⟨he, hp⟩ | ⟨he, hp⟩ <;> subst he <;> subst hp <;>
        simp [login, mockUsers] at hfalse
  · have hlogin : login email password current = (false, current) := by
      simp only [login, if_neg hc]
    refine ⟨?_, ?_, ?_, ?_⟩
    · rw [hlogin]
      exact iff_of_false (by simp) hc
    · intro h; exact absurd (Or.inl h) hc
    · intro h; exact absurd (Or.inr h) hc
    · intro _; rw [hlogin]

/-- Witness for login_spec at concrete inputs. -/
theorem login_spec_witness :
    login "admin@food.com" "admin123" none = (true, some adminUser) ∧
    login "user@food.com" "user123" (some adminUser) = (true, some regularUser) ∧
    login "admin@food.com" "wrong" (some adminUser) = (false, some adminUser) := by
  have h1 := login_spec "admin@food.com" "admin123" (none : Option AuthUser)
  have h2 := login_spec "user@food.com" "user123" (some adminUser)
  have h3 := login_spec "admin@food.com" "wrong" (some adminUser)
  refine ⟨h1.2.1 ⟨rfl, rfl⟩, h2.2.2.1 ⟨rfl, rfl⟩, ?_⟩
  have hfalse : (login "admin@food.com" "wrong" (some adminUser)).1 = false := by
    cases hval : (login "admin@food.com" "wrong" (some adminUser)).1 with
    | false => rfl
    | true =>
        rcases h3.1.mp hval with ⟨_, hp⟩ | ⟨he, _⟩
        · exact absurd hp (by decide)
        · exact absurd he (by decide)
  have hcur := h3.2.2.2 hfalse
  have hsplit : login "admin@food.com" "wrong" (some adminUser) =
      ((login "admin@food.com" "wrong" (some adminUser)).1,
       (login "admin@food.com" "wrong" (some adminUser)).2) := rfl
  rw [hsplit, hfalse, hcur]

/-- C5 counterexample: the Dashboard health consumer reads the field
healthy_servers, which is not among the field names the claim lists for
GET /health, and no perWorkerServedCount field exists in the documented
/stats response; the read set and the claimed field set differ. -/
theorem health_fields_counterexample :
    "healthy_servers" ∈ dashboardHealthReads ∧
    "healthy_servers" ∉ specHealthFields ∧
    "total_requests" ∈ dashboardHealthReads ∧
    "total_requests" ∉ specHealthFields ∧
    "perWorkerServedCount" ∉ guideStatsTopFields ∧
    "perWorkerServedCount" ∉ guideStatsLoadBalancerFields ∧
    dashboardHealthReads ≠ specHealthFields := by
  decide

/-- C5 amended: the health consumers read the snake_case fields of the
documented response (status, healthy_servers, total_servers, servers with
url, healthy, current_load per entry) plus total_requests; of the claimed
camelCase names only status occurs; the documented /stats response nests
algorithm inside load_balancer and exposes next_server and current_index,
with none of the claimed stats field names at top level. -/
theorem health_fields_amended :
    (∀ f ∈ dashboardHealthReads, f ∈ guideHealthFields ∨ f = "total_requests") ∧
    (∀ f ∈ dashboardServerEntryReads, f ∈ guideHealthServerFields ∨ f = "current_load") ∧
    (∀ f ∈ homeHealthReads, f ∈ guideHealthFields) ∧
    (∀ f ∈ specHealthFields, (f ∈ dashboardHealthReads ↔ f = "status")) ∧
    (∀ f ∈ specStatsFields, f ∉ guideStatsTopFields) ∧
    "algorithm" ∈ guideStatsLoadBalancerFields ∧
    "next_server" ∈ guideStatsTopFields ∧
    "current_index" ∈ guideStatsTopFields := by
  decide

/-- Witness for health_fields_amended at concrete fields. -/
theorem health_fields_amended_witness :
    ("status" ∈ guideHealthFields ∨ "status" = "total_requests") ∧
    ("status" ∈ dashboardHealthReads ↔ "status" = "status") := by
  have h := health_fields_amended
  exact ⟨h.1 "status" (by decide), h.2.2.2.1 "status" (by decide)⟩

/-- Helper: when every fetched status is non-terminal, the poll closure
exhausts its budget, scheduling one fixed delay per remaining attempt, and
surfaces the timeout error. -/
lemma pollAux_timeout (statusAt : Nat → BStatus)
    (h : ∀ i, (statusAt i).isTerminal = false) :
    ∀ budget idx delays,
      pollAux statusAt budget idx delays =
        .timedOut "Batch processing timed out" (idx + budget + 1)
          (delays ++ List.replicate budget pollIntervalMs) := by
  intro budget
  induction budget with
  | zero =>
      intro idx delays
      simp [pollAux, h idx]
  | succ b ih =>
      intro idx delays
      rw [pollAux.eq_def]
      simp only [h idx, Bool.false_eq_true, if_false]
      rw [ih (idx + 1) (delays ++ [pollIntervalMs])]
      have harith : idx + 1 + b + 1 = idx + (b + 1) + 1 := by omega
      have hlist : (delays ++ [pollIntervalMs]) ++ List.replicate b pollIntervalMs =
          delays ++ List.replicate (b + 1) pollIntervalMs := by
        simp [List.replicate_succ, List.append_assoc]
      rw [harith, hlist]

/-- Helper: the delays scheduled by the poll closure extend the accumulator
by at most budget copies of the fixed interval. -/
lemma pollAux_delays_shape (statusAt : Nat → BStatus) :
    ∀ budget idx delays,
      ∃ k, k ≤ budget ∧
        (pollAux statusAt budget idx delays).delays =
          delays ++ List.replicate k pollIntervalMs := by
  intro budget
  induction budget with
  | zero =>
      intro idx delays
      refine ⟨0, Nat.le_refl 0, ?_⟩
      rw [pollAux.eq_def]
      cases hterm : (statusAt idx).isTerminal <;> simp [hterm, PollOutcome.delays]
  | succ b ih =>
      intro idx delays
      rw [pollAux.eq_def]
      cases hterm : (statusAt idx).isTerminal with
      | true =>
          refine ⟨0, Nat.zero_le _, ?_⟩
          simp [hterm, PollOutcome.delays]
      | false =>
          simp only [hterm, Bool.false_eq_true, if_false]
          obtain ⟨k, hk, hdel⟩ := ih (idx + 1) (delays ++ [pollIntervalMs])
          refine ⟨k + 1, by omega, ?_⟩
          rw [hdel]
          simp [List.replicate_succ, List.append_assoc]

/-- Helper: when the first terminal status appears at offset k within the
budget, the poll closure stops there, having scheduled exactly k interval
delays and fetched k + 1 times beyond the starting index. -/
lemma pollAux_first_terminal (statusAt : Nat → BStatus) :
    ∀ k budget idx delays, k ≤ budget →
      (∀ j, j < k → (statusAt (idx + j)).isTerminal = false) →
      (statusAt (idx + k)).isTerminal = true →
      pollAux statusAt budget idx delays =
        .finished (statusAt (idx + k)) (idx + k + 1)
          (delays ++ List.replicate k pollIntervalMs) := by
  intro k
  induction k with
  | zero =>
      intro budget idx delays _ _ hterm
      rw [pollAux.eq_def]
      simp only [Nat.add_zero] at hterm
      simp [hterm]
  | succ n ih =>
      intro budget idx delays hle hpre hterm
      have h0 : (statusAt idx).isTerminal = false := by
        have := hpre 0 (Nat.succ_pos n)
        simpa using this
      cases budget with
      | zero => omega
      | succ b =>
          rw [pollAux.eq_def]
          simp only [h0, Bool.false_eq_true, if_false]
          have hpre2 : ∀ j, j < n → (statusAt (idx + 1 + j)).isTerminal = false := by
            intro j hj
            have := hpre (j + 1) (by omega)
            have harg : idx + 1 + j = idx + (j + 1) := by omega
            rw [harg]
            exact this
          have hterm2 : (statusAt (idx + 1 + n)).isTerminal = true := by
            have harg : idx + 1 + n = idx + (n + 1) := by omega
            rw [harg]
            exact hterm
          rw [ih b (idx + 1) (delays ++ [pollIntervalMs]) (by omega) hpre2 hterm2]
          have harg : idx + 1 + n = idx + (n + 1) := by omega
          have hlist : (delays ++ [pollIntervalMs]) ++ List.replicate n pollIntervalMs =
              delays ++ List.replicate (n + 1) pollIntervalMs := by
            simp [List.replicate_succ, List.append_assoc]
          rw [harg, hlist]

/-- C3: the polling loop schedules every retry with the fixed 1000 ms delay,
never schedules more than maxPolls = 300 retries, and when the status never
turns terminal it stops after exhausting exactly that cap with the error
message Batch processing timed out. -/
theorem pollBatchStatus_capped (statusAt : Nat → BStatus) :
    maxPolls = 300 ∧
    pollIntervalMs = 1000 ∧
    (pollBatchStatus statusAt).delays.length ≤ maxPolls ∧
    (∀ d ∈ (pollBatchStatus statusAt).delays, d = pollIntervalMs) ∧
    ((∀ i, (statusAt i).isTerminal = false) →
      pollBatchStatus statusAt =
        .timedOut "Batch processing timed out" (maxPolls + 1)
          (List.replicate maxPolls pollIntervalMs)) := by
  obtain ⟨k, hk, hdel⟩ := pollAux_delays_shape statusAt maxPolls 0 []
  have hdel2 : (pollBatchStatus statusAt).delays = List.replicate k pollIntervalMs := by
    rw [pollBatchStatus, hdel]
    simp
  refine ⟨rfl, rfl, ?_, ?_, ?_⟩
  · rw [hdel2]
    simpa using hk
  · intro d hd
    rw [hdel2] at hd
    exact List.eq_of_mem_replicate hd
  · intro hall
    rw [pollBatchStatus, pollAux_timeout statusAt hall maxPolls 0 []]
    simp

/-- Witness for pollBatchStatus_capped: a batch that stays queued forever is
abandoned after the 300 scheduled retries with the timeout error. -/
theorem pollBatchStatus_capped_witness :
    pollBatchStatus (fun _ => BStatus.queued) =
      .timedOut "Batch processing timed out" 301 (List.replicate 300 1000) := by
  have h := (pollBatchStatus_capped (fun _ => BStatus.queued)).2.2.2.2 (fun _ => rfl)
  rw [h]
  rfl

/-- C4: when the first terminal status is reported at fetch index k within
the attempt budget, the loop stops there: it scheduled a retry only for the
k non-terminal observations before it, fetched exactly k + 1 times in
total, and performs no further poll for that batch. -/
theorem pollBatchStatus_stops_at_terminal (statusAt : Nat → BStatus) (k : Nat)
    (hk : k ≤ maxPolls)
    (hpre : ∀ j, j < k → (statusAt j).isTerminal = false)
    (hterm : (statusAt k).isTerminal = true) :
    pollBatchStatus statusAt =
      .finished (statusAt k) (k + 1) (List.replicate k pollIntervalMs) := by
  have h := pollAux_first_terminal statusAt k maxPolls 0 [] hk
    (by intro j hj; simpa using hpre j hj) (by simpa using hterm)
  rw [pollBatchStatus, h]
  simp

/-- Witness for pollBatchStatus_stops_at_terminal: a batch that completes on
the third fetch is polled exactly three times with two scheduled retries. -/
theorem pollBatchStatus_stops_witness :
    pollBatchStatus (fun n => if n = 2 then BStatus.completed else BStatus.queued) =
      .finished BStatus.completed 3 [1000, 1000] := by
  have h := pollBatchStatus_stops_at_terminal
    (fun n => if n = 2 then BStatus.completed else BStatus.queued) 2
    (by decide) (by decide) (by decide)
  rw [h]
  rfl

/-- Helper: a duplicate-free list of indices below n has at most n
elements. -/
lemma nodup_bounded_length_le (l : List Nat) (n : Nat)
    (hnd : l.Nodup) (hlt : ∀ i ∈ l, i < n) : l.length ≤ n := by
  classical
  have hsub : l.toFinset ⊆ Finset.range n := by
    intro x hx
    exact Finset.mem_range.mpr (hlt x (List.mem_toFinset.mp hx))
  have hcard : l.toFinset.card = l.length := List.toFinset_card_of_nodup hnd
  have := Finset.card_le_card hsub
  rw [hcard, Finset.card_range] at this
  exact this

/-- Helper: transitionStatus only touches the status field. -/
lemma transitionStatus_fields (b : Batch) (s : BStatus) :
    (transitionStatus b s).done = b.done ∧
    (transitionStatus b s).total = b.total ∧
    (transitionStatus b s).errorMsg = b.errorMsg := by
  unfold transitionStatus
  split <;> exact ⟨rfl, rfl, rfl⟩

/-- Helper: transitionStatus never decreases the status rank. -/
lemma transitionStatus_rank (b : Batch) (s : BStatus) :
    statusRank b.status ≤ statusRank (transitionStatus b s).status := by
  unfold transitionStatus
  split
  · next h => exact Nat.le_of_lt h
  · exact Nat.le_refl _

/-- Helper: a terminal status has the maximal rank. -/
lemma statusRank_of_terminal (s : BStatus) (h : s.isTerminal = true) :
    statusRank s = 2 := by
  cases s <;> simp_all [BStatus.isTerminal, statusRank]

/-- Helper: every status rank is at most 2. -/
lemma statusRank_le_two (s : BStatus) : statusRank s ≤ 2 := by
  cases s <;> simp [statusRank]

/-- C1: over the spec-modelled batch store, a well-formed batch keeps
completedCount at most total, every step preserves well-formedness and the
bound, the status rank only moves forward, a terminal batch is frozen by
every event, and completing a fresh valid item raises completedCount by
exactly one. -/
theorem batch_invariants (b : Batch) (e : BatchEvent) (i : Nat) (hwf : BatchWf b) :
    completedCount b ≤ b.total ∧
    BatchWf (stepBatch b e) ∧
    completedCount (stepBatch b e) ≤ (stepBatch b e).total ∧
    statusRank b.status ≤ statusRank (stepBatch b e).status ∧
    (b.status.isTerminal = true → stepBatch b e = b) ∧
    (b.status.isTerminal = false → i < b.total → i ∉ b.done →
      completedCount (stepBatch b (.itemComplete i)) = completedCount b + 1) := by
  obtain ⟨hnd, hbound⟩ := hwf
  have hcount : completedCount b ≤ b.total :=
    nodup_bounded_length_le b.done b.total hnd hbound
  have hwfstep : BatchWf (stepBatch b e) := by
    cases e with
    | firstDequeue =>
        obtain ⟨hd, ht, _⟩ := transitionStatus_fields b .processing
        simp only [stepBatch]
        exact ⟨hd ▸ hnd, by rw [hd, ht]; exact hbound⟩
    | itemComplete j =>
        simp only [stepBatch]
        by_cases hterm : b.status.isTerminal = true
        · rw [if_pos hterm]
          exact ⟨hnd, hbound⟩
        · rw [if_neg hterm]
          by_cases hvalid : j < b.total ∧ j ∉ b.done
          · rw [if_pos hvalid]
            obtain ⟨hjlt, hjnot⟩ := hvalid
            have hnd2 : (j :: b.done).Nodup := List.nodup_cons.mpr ⟨hjnot, hnd⟩
            have hbound2 : ∀ x ∈ j :: b.done, x < b.total := by
              intro x hx
              rcases List.mem_cons.mp hx with hx | hx
              · exact hx ▸ hjlt
              · exact hbound x hx
            split
            · obtain ⟨hd, ht, _⟩ :=
                transitionStatus_fields { b with done := j :: b.done } .completed
              refine ⟨?_, ?_⟩
              · rw [hd]; exact hnd2
              · rw [hd, ht]; exact hbound2
            · exact ⟨hnd2, hbound2⟩
          · rw [if_neg hvalid]
            exact ⟨hnd, hbound⟩
    | submissionFault m =>
        simp only [stepBatch]
        by_cases hterm : b.status.isTerminal = true
        · rw [if_pos hterm]
          exact ⟨hnd, hbound⟩
        · rw [if_neg hterm]
          exact ⟨hnd, hbound⟩
  have hcountstep : completedCount (stepBatch b e) ≤ (stepBatch b e).total := by
    obtain ⟨hnd2, hbound2⟩ := hwfstep
    exact nodup_bounded_length_le _ _ hnd2 hbound2
  have hrank : statusRank b.status ≤ statusRank (stepBatch b e).status := by
    cases e with
    | firstDequeue =>
        simp only [stepBatch]
        exact transitionStatus_rank b .processing
    | itemComplete j =>
        simp only [stepBatch]
        by_cases hterm : b.status.isTerminal = true
        · rw [if_pos hterm]
        · rw [if_neg hterm]
          by_cases hvalid : j < b.total ∧ j ∉ b.done
          · rw [if_pos hvalid]
            split
            · exact transitionStatus_rank { b with done := j :: b.done } .completed
            · exact Nat.le_refl _
          · rw [if_neg hvalid]
      | submissionFault m =>
        simp only [stepBatch]
        by_cases hterm : b.status.isTerminal = true
        · rw [if_pos hterm]
        · rw [if_neg hterm]
          exact statusRank_le_two b.status
  have hfrozen : b.status.isTerminal = true → stepBatch b e = b := by
    intro hterm
    cases e with
    | firstDequeue =>
        simp only [stepBatch]
        unfold transitionStatus
        rw [if_neg]
        rw [statusRank_of_terminal b.status hterm]
        simp [statusRank]
    | itemComplete j =>
        simp only [stepBatch]
        rw [if_pos hterm]
    | submissionFault m =>
        simp only [stepBatch]
        rw [if_pos hterm]
  have hinc : b.status.isTerminal = false → i < b.total → i ∉ b.done →
      completedCount (stepBatch b (.itemComplete i)) = completedCount b + 1 := by
    intro hterm hlt hnot
    simp only [stepBatch]
    rw [if_neg (by rw [hterm]; exact Bool.false_ne_true)]
    rw [if_pos ⟨hlt, hnot⟩]
    split
    · obtain ⟨hd, _, _⟩ :=
        transitionStatus_fields { b with done := i :: b.done } .completed
      unfold completedCount
      rw [hd]
      rfl
    · rfl
  exact ⟨hcount, hwfstep, hcountstep, hrank, hfrozen, hinc⟩

theorem batch_invariants_witness :
    completedCount (createBatch 2) ≤ (createBatch 2).total ∧
    completedCount (stepBatch (createBatch 2) (.itemComplete 0)) = 1 := by
  have h := batch_invariants (createBatch 2) (.itemComplete 0) 0
    ⟨List.nodup_nil, by intro x hx; cases hx⟩
  refine ⟨h.1, ?_⟩
  have h6 := h.2.2.2.2.2 rfl (by decide) (by intro hx; cases hx)
  rw [h6]
  rfl

/-- C7: the client renders the results section only for a completed batch,
and the spec-modelled status endpoint populates results only once the batch
is completed and the error field only once it is failed, so a non-terminal
status response carries neither. -/
theorem results_only_when_terminal (r : BatchStatusRecord) (b : Batch) (bid : String) :
    (showResultsSection r = true → r.status = .completed) ∧
    ((getStatusResponse b bid).results ≠ none → b.status = .completed) ∧
    ((getStatusResponse b bid).error ≠ none → b.status = .failed) ∧
    (b.status.isTerminal = false →
      (getStatusResponse b bid).results = none ∧
      (getStatusResponse b bid).error = none) := by
  refine ⟨?_, ?_, ?_, ?_⟩
  · intro hshow
    unfold showResultsSection at hshow
    have := (Bool.and_eq_true _ _).mp hshow
    exact beq_iff_eq.mp this.1
  · intro hres
    unfold getStatusResponse at hres
    by_contra hne
    rw [if_neg hne] at hres
    exact hres rfl
  · intro herr
    unfold getStatusResponse at herr
    by_contra hne
    rw [if_neg hne] at herr
    exact herr rfl
  · intro hterm
    have hnc : b.status ≠ .completed := by
      intro h; rw [h] at hterm; cases hterm
    have hnf : b.status ≠ .failed := by
      intro h; rw [h] at hterm; cases hterm
    unfold getStatusResponse
    exact ⟨by rw [if_neg hnc], by rw [if_neg hnf]⟩

/-- Witness for results_only_when_terminal: a queued batch's status
response has no results and no error. -/
theorem results_only_when_terminal_witness :
    (getStatusResponse (createBatch 3) "b1").results = none ∧
    (getStatusResponse (createBatch 3) "b1").error = none := by
  exact (results_only_when_terminal
    (uploadBatchInitialStatus "b1" 3) (createBatch 3) "b1").2.2.2 rfl

/-- Helper: reads inside an all-true health list are true. -/
lemma getD_replicate_true (k i : Nat) (h : i < k) :
    (List.replicate k true).getD i false = true := by
  induction k generalizing i with
  | zero => omega
  | succ n ih =>
      cases i with
      | zero => simp [List.replicate]
      | succ j =>
          simp only [List.replicate, List.getD_cons_succ]
          exact ih j (by omega)

/-- Helper: with every worker healthy the scan picks the cursor position
(reduced modulo the pool size) immediately. -/
lemma scanHealthy_allHealthy (k c fuel : Nat) (hk : 0 < k) (hfuel : 0 < fuel) :
    scanHealthy (List.replicate k true) c fuel = some (c % k) := by
  cases fuel with
  | zero => omega
  | succ f =>
      rw [scanHealthy]
      simp only [healthyAt, List.length_replicate]
      rw [if_pos (getD_replicate_true k (c % k) (Nat.mod_lt c hk))]

/-- Helper: one routing step on an all-healthy pool with an in-range cursor
serves exactly the worker at the cursor and advances the cursor by one
(wrapping). -/
lemma routeOne_components (r : Router) (k : Nat) (hk : 0 < k)
    (hh : r.health = List.replicate k true) (hc : r.cursor < k) :
    (routeOne r).health = r.health ∧
    (routeOne r).cursor = (r.cursor + 1) % k ∧
    ∀ i, (routeOne r).served i = if i = r.cursor then r.served i + 1 else r.served i := by
  have hlen : r.health.length = k := by rw [hh]; simp
  have hscan : scanHealthy r.health r.cursor r.health.length = some r.cursor := by
    rw [hh]
    simp only [List.length_replicate]
    rw [scanHealthy_allHealthy k r.cursor k hk hk, Nat.mod_eq_of_lt hc]
  unfold routeOne
  rw [hscan]
  exact ⟨rfl, by rw [hlen], fun i => rfl⟩

/-- Helper: routing j requests (j at most the pool size) over an all-healthy
pool starting at cursor 0 serves each of the first j workers once and moves
the cursor to j modulo the pool size. -/
lemma routeN_cycle (k : Nat) (hk : 0 < k) (r : Router)
    (hh : r.health = List.replicate k true) (hc : r.cursor = 0) :
    ∀ j, j ≤ k →
      (routeN j r).health = List.replicate k true ∧
      (routeN j r).cursor = j % k ∧
      ∀ i, (routeN j r).served i = if i < j then r.served i + 1 else r.served i := by
  intro j
  induction j with
  | zero =>
      intro _
      refine ⟨hh, ?_, ?_⟩
      · rw [routeN, hc, Nat.zero_mod]
      · intro i
        simp [routeN]
  | succ n ih =>
      intro hle
      obtain ⟨ihh, ihc, ihs⟩ := ih (by omega)
      have hn : n < k := by omega
      have hcur : (routeN n r).cursor = n := by
        rw [ihc, Nat.mod_eq_of_lt hn]
      obtain ⟨sh, sc, ss⟩ := routeOne_components (routeN n r) k hk ihh (by rw [hcur]; exact hn)
      have hstep : routeN (n + 1) r = routeOne (routeN n r) := rfl
      refine ⟨?_, ?_, ?_⟩
      · rw [hstep, sh, ihh]
      · rw [hstep, sc, hcur]
      · intro w
        rw [hstep, ss w, hcur]
        by_cases hw : w = n
        · rw [if_pos hw, ihs w, if_neg (by omega), if_pos (by omega)]
        · by_cases hlt : w < n
          · rw [if_neg hw, ihs w, if_pos hlt, if_pos (by omega)]
          · rw [if_neg hw, ihs w, if_neg hlt, if_neg (by omega)]

/-- Helper: m full cycles over an all-healthy pool of k workers serve every
worker exactly m times and return the cursor to its starting position 0. -/
lemma routeN_cycles (k m : Nat) (hk : 0 < k) :
    (routeN (m * k) (initialRouter k)).health = List.replicate k true ∧
    (routeN (m * k) (initialRouter k)).cursor = 0 ∧
    ∀ i, (routeN (m * k) (initialRouter k)).served i = if i < k then m else 0 := by
  induction m with
  | zero =>
      rw [Nat.zero_mul]
      refine ⟨rfl, rfl, ?_⟩
      intro i
      simp [routeN, initialRouter]
  | succ p ih =>
      obtain ⟨ihh, ihc, ihs⟩ := ih
      have hsplit : (p + 1) * k = k + p * k := by ring
      have hadd : routeN ((p + 1) * k) (initialRouter k) =
          routeN k (routeN (p * k) (initialRouter k)) := by
        rw [hsplit]
        have : ∀ a b (r : Router), routeN (a + b) r = routeN a (routeN b r) := by
          intro a
          induction a with
          | zero => intro b r; simp [routeN, Nat.zero_add]
          | succ q ihq =>
              intro b r
              have h1 : q + 1 + b = (q + b) + 1 := by omega
              rw [h1, routeN, ihq b r]
              rfl
        exact this k (p * k) (initialRouter k)
      obtain ⟨ch, cc, cs⟩ :=
        routeN_cycle k hk (routeN (p * k) (initialRouter k)) ihh ihc k (Nat.le_refl k)
      refine ⟨?_, ?_, ?_⟩
      · rw [hadd, ch]
      · rw [hadd, cc, Nat.mod_self]
      · intro i
        rw [hadd, cs i, ihs i]
        by_cases hik : i < k
        · rw [if_pos hik, if_pos hik, if_pos hik]
        · rw [if_neg hik, if_neg hik, if_neg hik]

/-- C2: in the spec-modelled round-robin router with K healthy workers,
any N = m * K sequential requests leave every worker with served count m
(so no two counts differ by more than 1) and the cursor back at its
starting position 0; in particular 3 healthy workers and 6 sequential
requests yield served counts 2, 2, 2 with the cursor returned to 0. -/
theorem roundRobin_fairness (k m : Nat) (hk : 1 ≤ k) :
    (∀ i, i < k → (routeN (m * k) (initialRouter k)).served i = m) ∧
    (routeN (m * k) (initialRouter k)).cursor = 0 ∧
    (∀ i j, i < k → j < k →
      (routeN (m * k) (initialRouter k)).served i ≤
        (routeN (m * k) (initialRouter k)).served j + 1) ∧
    (initialRouter 3).cursor = 0 ∧
    (routeN 6 (initialRouter 3)).served 0 = 2 ∧
    (routeN 6 (initialRouter 3)).served 1 = 2 ∧
    (routeN 6 (initialRouter 3)).served 2 = 2 ∧
    (routeN 6 (initialRouter 3)).cursor = 0 := by
  obtain ⟨_, hc, hs⟩ := routeN_cycles k m hk
  refine ⟨?_, hc, ?_, rfl, ?_, ?_, ?_, ?_⟩
  · intro i hik
    rw [hs i, if_pos hik]
  · intro i j hik hjk
    rw [hs i, hs j, if_pos hik, if_pos hjk]
    omega
  · decide
  · decide
  · decide
  · decide

/-- Witness for roundRobin_fairness: two full cycles over three healthy
workers serve worker 1 exactly twice and return the cursor to 0. -/
theorem roundRobin_fairness_witness :
    (routeN (2 * 3) (initialRouter 3)).served 1 = 2 ∧
    (routeN 6 (initialRouter 3)).cursor = 0 := by
  have h := roundRobin_fairness 3 2 (by omega)
  exact ⟨h.1 1 (by omega), h.2.2.2.2.2.2.2⟩

end FoodCalorie
